import Mathlib

/-!
Verification of the AI-provider adapter layer of the english-speak-brain backend.

The development shallowly embeds the TypeScript source:
JS strings are Lean `String`s (lists of characters where character-level
reasoning is needed), absent JS values (`undefined`/`null`) are `Option`,
thrown errors are `Except`, and JS numbers are rationals `ℚ`.
-/

namespace EnglishBrain

/-- JS whitespace characters relevant to `String.prototype.trim` and the
`\s` regex class (space, tab, LF, CR, VT, FF). -/
def isJsWs (c : Char) : Bool :=
  c = ' ' || c = '\t' || c = '\n' || c = '\r' || c = Char.ofNat 11 || c = Char.ofNat 12

def dropLeadingWs (cs : List Char) : List Char := cs.dropWhile isJsWs

def dropTrailingWs (cs : List Char) : List Char := (cs.reverse.dropWhile isJsWs).reverse

/-- Model of JS `s.trim()` on a character list. -/
def jsTrim (cs : List Char) : List Char := dropTrailingWs (dropLeadingWs cs)

/-! ## Provider response shapes

Shape B/C ("responses" API): an `output` list of items; a `message` item
carries a `content` list whose `output_text` elements carry the text. -/

/-- One element of a message item's `content` list. `text` is `none` when the
field is absent in the provider payload. -/
structure ContentItem where
  type : String
  text : Option String
deriving DecidableEq, Repr

/-- One element of the provider response's `output` list. `content` is `none`
when the field is absent or not an array. -/
structure OutputItem where
  type : String
  content : Option (List ContentItem)
deriving DecidableEq, Repr

/-- Shallow embedding of `extractTextFromResponse` (textGeneration service,
Responses-API prompt variant):
`output?.find(item => item.type === 'message')`, then
`messageItem?.content?.find(c => c.type === 'output_text')`, then
`textContent?.text || ''`. -/
def extractTextFromResponse (output : Option (List OutputItem)) : String :=
  let messageItem := output.bind (List.find? (fun item => item.type = "message"))
  let textContent := messageItem.bind (fun m =>
    m.content.bind (List.find? (fun c => c.type = "output_text")))
  (textContent.bind ContentItem.text).getD ""

/-- Inner `for` loop of the inline extraction in `generateText`
(Responses-API service): first `output_text` content element whose `text`
is truthy (present and non-empty); `""` when none. -/
def firstTruthyOutputText : List ContentItem → String
  | [] => ""
  | c :: cs =>
    if c.type = "output_text" ∧ c.text.getD "" ≠ "" then c.text.getD ""
    else firstTruthyOutputText cs

/-- The `extractedText` contribution of one `output` item in the inline
extraction of `generateText`: a `message` item with a content array
contributes its first truthy `output_text`, anything else contributes `""`. -/
def itemText (item : OutputItem) : String :=
  if item.type = "message" then
    match item.content with
    | some cs => firstTruthyOutputText cs
    | none => ""
  else ""

/-- Outer `for` loop of the inline extraction in `generateText`: the loop
stops at the first item that produced a non-empty `extractedText`. -/
def inlineExtractGo : List OutputItem → String
  | [] => ""
  | item :: rest =>
    if itemText item ≠ "" then itemText item else inlineExtractGo rest

/-- Shallow embedding of the inline text extraction in `generateText`
(textGeneration.service.ts, Responses-API version): guarded by
`response.output && Array.isArray(response.output) && response.output.length > 0`. -/
def inlineExtractText (output : Option (List OutputItem)) : String :=
  match output with
  | some l => inlineExtractGo l
  | none => ""

/-- Modelled from the spec: "scan the output list; for the first item
identified as a message, scan its content list; for the first content element
identified as output text, take its text; stop on first match; if no match is
found anywhere, return empty string". -/
def specExtractBC (out : List OutputItem) : String :=
  match out.find? (fun i => i.type = "message") with
  | none => ""
  | some m =>
    match (m.content.getD []).find? (fun c => c.type = "output_text") with
    | none => ""
    | some c => c.text.getD ""

/-- All `output_text` texts of all message items, in order, absent text
read as `""`.  Reference order for the inline extractor. -/
def allOutputTexts (out : List OutputItem) : List String :=
  (out.filter (fun i => i.type = "message")).flatMap
    (fun i => ((i.content.getD []).filter (fun c => c.type = "output_text")).map
      (fun c => c.text.getD ""))

/-- First non-empty element of a list of strings, `""` when none. -/
def firstNonEmpty (l : List String) : String :=
  (l.find? (fun t => t ≠ "")).getD ""

/-! ## Shape A ("chat/completions") normalization -/

/-- The `message` object of a chat-completions choice; `content` may be null. -/
structure ChoiceMessage where
  content : Option String
deriving DecidableEq, Repr

/-- One element of the `choices` list; `message` may be absent. -/
structure Choice where
  message : Option ChoiceMessage
deriving DecidableEq, Repr

/-- The internal typed error: `AppError(code, message, statusCode)`. -/
structure AppErr where
  code : String
  message : String
  statusCode : Nat
deriving DecidableEq, Repr

/-- Embedding of the choice handling in the chat-completions `generateText`:
`choices[0]` then `if (!choice || !choice.message) throw new Error(...)`,
otherwise `choice.message.content || ''`. -/
def chatChoiceText (choices : List Choice) : Except String String :=
  match choices.head? with
  | none => .error "No completion choice returned from OpenAI"
  | some c =>
    match c.message with
    | none => .error "No completion choice returned from OpenAI"
    | some m => .ok (m.content.getD "")

/-- The chat-completions `generateText` result restricted to its text field:
a generic `Error` thrown in the try block is wrapped by the catch block into
`AppError(INTERNAL_SERVER_ERROR, "Failed to generate text: " + msg, 500)`. -/
def generateTextShapeA (choices : List Choice) : Except AppErr String :=
  match chatChoiceText choices with
  | .ok t => .ok t
  | .error msg =>
      .error ⟨"INTERNAL_SERVER_ERROR", "Failed to generate text: " ++ msg, 500⟩

/-! ## Extraction lemmas -/

theorem firstTruthyOutputText_eq (cs : List ContentItem) :
    firstTruthyOutputText cs =
      firstNonEmpty ((cs.filter (fun c => c.type = "output_text")).map
        (fun c => c.text.getD "")) := by
  induction cs with
  | nil => rfl
  | cons c cs ih =>
    rw [firstTruthyOutputText]
    by_cases ht : c.type = "output_text"
    · by_cases hx : c.text.getD "" = ""
      · rw [if_neg (by simp [hx]), List.filter_cons_of_pos (by simp [ht]),
          List.map_cons, firstNonEmpty, List.find?_cons_of_neg _ (by simp [hx])]
        exact ih
      · rw [if_pos ⟨ht, hx⟩, List.filter_cons_of_pos (by simp [ht]),
          List.map_cons, firstNonEmpty, List.find?_cons_of_pos _ (by simp [hx]),
          Option.getD_some]
    · rw [if_neg (by simp [ht]), List.filter_cons_of_neg (by simp [ht])]
      exact ih

theorem itemText_eq (item : OutputItem) (hm : item.type = "message") :
    itemText item =
      firstNonEmpty (((item.content.getD []).filter
        (fun c => c.type = "output_text")).map (fun c => c.text.getD "")) := by
  rw [itemText, if_pos hm]
  cases hc : item.content with
  | none => simp [firstNonEmpty]
  | some cs => simp only [Option.getD_some]; exact firstTruthyOutputText_eq cs

theorem inlineExtractGo_eq (out : List OutputItem) :
    inlineExtractGo out = firstNonEmpty (allOutputTexts out) := by
  induction out with
  | nil => rfl
  | cons item rest ih =>
    rw [inlineExtractGo]
    by_cases hm : item.type = "message"
    · have hall : allOutputTexts (item :: rest) =
          ((item.content.getD []).filter (fun c => c.type = "output_text")).map
            (fun c => c.text.getD "") ++ allOutputTexts rest := by
        rw [allOutputTexts, List.filter_cons_of_pos (by simp [hm]),
          List.flatMap_cons]
        rfl
      rw [hall, itemText_eq item hm]
      simp only [firstNonEmpty, List.find?_append]
      cases hf : (((item.content.getD []).filter
          (fun c => c.type = "output_text")).map
          (fun c => c.text.getD "")).find? (fun t => t ≠ "") with
      | none =>
        simp only [hf, Option.getD_none, Option.none_or, ne_eq,
          not_true_eq_false, if_false]
        simpa [firstNonEmpty] using ih
      | some t =>
        have htne : t ≠ "" := by simpa using List.find?_some hf
        simp only [hf, Option.getD_some, Option.or_some]
        rw [if_pos htne]
    · have hall : allOutputTexts (item :: rest) = allOutputTexts rest := by
        rw [allOutputTexts, List.filter_cons_of_neg (by simp [hm])]
        rfl
      have hitem : itemText item = "" := by rw [itemText, if_neg hm]
      rw [hall, hitem, if_neg (by simp)]
      exact ih

theorem extract_eq_specBC (output : Option (List OutputItem)) :
    extractTextFromResponse output = specExtractBC (output.getD []) := by
  cases output with
  | none => rfl
  | some l =>
    rw [extractTextFromResponse, specExtractBC]
    simp only [Option.getD_some, Option.bind_eq_bind, Option.some_bind]
    cases hf : l.find? (fun i => i.type = "message") with
    | none => rfl
    | some m =>
      cases hc : m.content with
      | none => simp [hc]
      | some cs =>
        simp only [hc, Option.some_bind, Option.getD_some]
        cases cs.find? (fun c => c.type = "output_text") <;> simp

/-! ## Claim C1 -/

/-- A Shape-B output on which the two normalizers in the repository disagree:
one message item whose first `output_text` element has empty text and whose
second has text `"B"`. -/
def exC1 : List OutputItem :=
  [⟨"message", some [⟨"output_text", some ""⟩, ⟨"output_text", some "B"⟩]⟩]

/-- C1, counterexample. The claim states that the Shape-B/C normalizer takes
the text of the first output-text content element of the first message item
(first match wins, later candidates ignored): on `exC1` that text is `""`
(as `extractTextFromResponse` indeed returns), but the inline normalizer of
`generateText` (textGeneration.service.ts, Responses-API version) skips the
empty-text element and returns `"B"`, so the claim is false for it. -/
theorem C1_counterexample :
    extractTextFromResponse (some exC1) = "" ∧
    inlineExtractText (some exC1) = "B" ∧
    inlineExtractText (some exC1) ≠ extractTextFromResponse (some exC1) := by
  refine ⟨rfl, rfl, ?_⟩
  decide

/-- C1 (amended): `extractTextFromResponse` (used by `talkWithSpecificTopic`
and the prompt-variant `generateText`) takes the text of the first output-text
content element of the first message item, returning `""` (never throwing)
when no such element exists; the inline normalizer of the Responses-API
`generateText` instead returns the first *non-empty* `output_text` text
scanning all message items in order (skipping message items that yield none),
and returns `""` (never throwing) when no non-empty text exists anywhere. -/
theorem C1_normalizer_behavior (output : Option (List OutputItem)) :
    extractTextFromResponse output = specExtractBC (output.getD []) ∧
    inlineExtractText output = firstNonEmpty (allOutputTexts (output.getD [])) := by
  refine ⟨extract_eq_specBC output, ?_⟩
  cases output with
  | none => rfl
  | some l => exact inlineExtractGo_eq l

/-! ## Claim C5 -/

/-- C5, counterexample. The claim states that when the first choice (or its
message) is absent, Shape-A normalization falls back to returning text `""`
rather than failing the request; in the code an empty `choices` list makes
`generateText` throw, and the catch block turns that into a 500 `AppError` —
the request fails instead of succeeding with `""`. -/
theorem C5_counterexample :
    generateTextShapeA [] =
      .error ⟨"INTERNAL_SERVER_ERROR",
        "Failed to generate text: No completion choice returned from OpenAI",
        500⟩ ∧
    generateTextShapeA [] ≠ .ok "" := by
  refine ⟨rfl, ?_⟩
  simp [generateTextShapeA, chatChoiceText]

/-- C5 (amended): the Shape-A normalizer takes the first choice's message
content, falling back to `""` only when the content field itself is null;
when the first choice or its message is absent the request fails with an
internal 500 `AppError` wrapping the thrown "No completion choice" error. -/
theorem C5_shapeA_normalization (choices : List Choice) :
    (∀ c, choices.head? = some c → ∀ m, c.message = some m →
      generateTextShapeA choices = .ok (m.content.getD "")) ∧
    ((choices.head? = none ∨ ∃ c, choices.head? = some c ∧ c.message = none) →
      generateTextShapeA choices =
        .error ⟨"INTERNAL_SERVER_ERROR",
          "Failed to generate text: No completion choice returned from OpenAI",
          500⟩) := by
  constructor
  · intro c hc m hm
    cases choices with
    | nil => simp at hc
    | cons c' rest =>
      simp only [List.head?_cons, Option.some.injEq] at hc
      subst hc
      rw [generateTextShapeA, chatChoiceText]
      simp [hm]
  · rintro (h | ⟨c, hc, hm⟩)
    · cases choices with
      | nil => rfl
      | cons c' rest => simp at h
    · cases choices with
      | nil => simp at hc
      | cons c' rest =>
        simp only [List.head?_cons, Option.some.injEq] at hc
        subst hc
        rw [generateTextShapeA, chatChoiceText]
        simp [hm]

/-- C5 witness: a concrete successful normalization through the amended
theorem. -/
theorem C5_witness :
    generateTextShapeA [⟨some ⟨some "hello"⟩⟩] = .ok "hello" := by
  have h := (C5_shapeA_normalization [⟨some ⟨some "hello"⟩⟩]).1
    ⟨some ⟨some "hello"⟩⟩ rfl ⟨some "hello"⟩ rfl
  simpa using h

/-! ## Claim C4: reasoning-model gating in the Responses-API generateText -/

/-- Model of JS `s.startsWith(p)` (kernel-computable). -/
def strStartsWith (s pat : String) : Bool := pat.data.isPrefixOf s.data

/-- `isReasoningModel` detection in `generateText`
(textGeneration.service.ts, Responses-API version, lines 574-576). -/
def isReasoningModel (model : String) : Bool :=
  strStartsWith model "o1" || strStartsWith model "o3" ||
    strStartsWith model "gpt-5"

/-- `openaiConfig.gpt.model` (config/openai.ts). -/
def cfgModel : String := "gpt-5-nano-2025-08-07"

/-- `openaiConfig.gpt.temperature` (config/openai.ts). -/
def cfgTemperature : ℚ := ⟨3, 10, by decide, by decide⟩

/-- Caller options of the Responses-API `generateText`, restricted to the
fields the gating concerns. -/
structure RespGenOptions where
  model : Option String
  temperature : Option ℚ
  topP : Option ℚ
  store : Option Bool
deriving DecidableEq, Repr

/-- Outbound request object of the Responses-API `generateText`, restricted
to the gated keys. `none` means the key is absent from the object (not set to
undefined). -/
structure RespRequestParams where
  model : String
  temperature : Option ℚ
  top_p : Option ℚ
  store : Bool
deriving DecidableEq, Repr

/-- Request building of the Responses-API `generateText` (lines 588-601):
destructuring defaults, reasoning-model detection, warning log, and the
conditional insertion of `temperature`/`top_p`. The second component records
whether the dropped-parameters warning was logged; after destructuring the
values are never `undefined` (config supplies defaults), so the warning fires
for every reasoning model. -/
def buildRespRequest (opts : RespGenOptions) : RespRequestParams × Bool :=
  let model := opts.model.getD cfgModel
  let temperature := opts.temperature.getD cfgTemperature
  let topP := opts.topP.getD 1
  let warned := isReasoningModel model && (true || true)
  ({ model := model
    , temperature := if isReasoningModel model then none else some temperature
    , top_p := if isReasoningModel model then none else some topP
    , store := opts.store.getD false }, warned)

/-- C4: whenever the effective model identifier starts with a
reasoning-family prefix (`o1`, `o3`, `gpt-5`), the outbound request object of
the Responses-API `generateText` contains no `temperature` key and no `top_p`
key at all, even when the caller supplied values, and the dropped values are
logged as a warning rather than failing the call. -/
theorem C4_reasoning_model_gating (opts : RespGenOptions)
    (h : strStartsWith (opts.model.getD cfgModel) "o1" = true ∨
         strStartsWith (opts.model.getD cfgModel) "o3" = true ∨
         strStartsWith (opts.model.getD cfgModel) "gpt-5" = true) :
    (buildRespRequest opts).1.temperature = none ∧
    (buildRespRequest opts).1.top_p = none ∧
    (buildRespRequest opts).2 = true := by
  have hr : isReasoningModel (opts.model.getD cfgModel) = true := by
    rw [isReasoningModel]
    rcases h with h | h | h <;> simp [h]
  refine ⟨?_, ?_, ?_⟩ <;> simp [buildRespRequest, hr]

/-- C4 witness: a caller-supplied temperature 0.7 and topP on model `gpt-5`
is dropped entirely, with the warning logged. -/
theorem C4_witness :
    (strStartsWith ((some "gpt-5").getD cfgModel) "o1" = true ∨
     strStartsWith ((some "gpt-5").getD cfgModel) "o3" = true ∨
     strStartsWith ((some "gpt-5").getD cfgModel) "gpt-5" = true) ∧
    ((buildRespRequest ⟨some "gpt-5", some ⟨7, 10, by decide, by decide⟩,
        some 1, none⟩).1.temperature = none ∧
     (buildRespRequest ⟨some "gpt-5", some ⟨7, 10, by decide, by decide⟩,
        some 1, none⟩).1.top_p = none ∧
     (buildRespRequest ⟨some "gpt-5", some ⟨7, 10, by decide, by decide⟩,
        some 1, none⟩).2 = true) :=
  ⟨Or.inr (Or.inr (by decide)),
   C4_reasoning_model_gating _ (Or.inr (Or.inr (by decide)))⟩

/-! ## Claim C7: the provider error mappers and already-typed errors -/

/-- The kinds of values a catch block can receive: a propagated `AppError`
(which `extends Error` but is not an `OpenAI.APIError`), a provider
`OpenAI.APIError` with optional HTTP status, any other `Error`, or a thrown
non-Error value. -/
inductive CaughtError where
  | appError (e : AppErr)
  | apiError (status : Option Nat) (message : String)
  | genericError (message : String)
  | nonError
deriving DecidableEq, Repr

/-- JS `x || d` on an optional HTTP status (undefined and 0 are falsy). -/
def jsOrNat (o : Option Nat) (d : Nat) : Nat :=
  match o with
  | some 0 => d
  | some n => n
  | none => d

/-- Catch block of `translateText` in translation.service.ts (lines 117-154):
it branches on `instanceof OpenAI.APIError`, then `instanceof Error`, with no
`instanceof AppError` branch; a propagated `AppError` therefore falls into
the generic `Error` branch and is re-wrapped. -/
def mapErrorTranslateV1 (e : CaughtError) : AppErr :=
  match e with
  | .apiError st msg =>
      ⟨"OPENAI_API_ERROR", "OpenAI API Error: " ++ msg, jsOrNat st 500⟩
  | .appError a =>
      ⟨"INTERNAL_SERVER_ERROR", "Failed to translate text: " ++ a.message, 500⟩
  | .genericError msg =>
      ⟨"INTERNAL_SERVER_ERROR", "Failed to translate text: " ++ msg, 500⟩
  | .nonError => ⟨"INTERNAL_SERVER_ERROR", "Failed to translate text", 500⟩

/-- Catch block of `translateText` in the updated translation service
(src/unnamed/part_009, lines 133-170): `instanceof AppError` is checked first
and the error re-raised unchanged. -/
def mapErrorTranslateV2 (e : CaughtError) : AppErr :=
  match e with
  | .appError a => a
  | .apiError st msg =>
      ⟨"OPENAI_API_ERROR", "OpenAI API Error: " ++ msg, jsOrNat st 500⟩
  | .genericError msg =>
      ⟨"INTERNAL_SERVER_ERROR", "Failed to translate text: " ++ msg, 500⟩
  | .nonError => ⟨"INTERNAL_SERVER_ERROR", "Failed to translate text", 500⟩

/-- Catch block of `generateResponseSuggestions` (src/unnamed/part_007,
lines 437-455): re-raises `AppError` unchanged, wraps everything else. -/
def mapErrorSuggestions (e : CaughtError) : AppErr :=
  match e with
  | .appError a => a
  | _ => ⟨"INTERNAL_SERVER_ERROR", "Failed to generate response suggestions", 500⟩

/-- The `AppError` thrown inside `translateText`'s try block when the
provider returns no translation (translation.service.ts lines 92-98). -/
def noTranslationErr : AppErr :=
  ⟨"OPENAI_API_ERROR", "No translation received from OpenAI", 500⟩

/-- C7, counterexample. The claim states that an already-typed `AppError`
reaching the provider error mapper is re-raised unchanged; the catch block of
`translateText` (translation.service.ts) has no `AppError` branch, so the
typed error thrown at line 93 is re-wrapped into a different code and
message. -/
theorem C7_counterexample :
    mapErrorTranslateV1 (.appError noTranslationErr) =
      ⟨"INTERNAL_SERVER_ERROR",
        "Failed to translate text: No translation received from OpenAI", 500⟩ ∧
    mapErrorTranslateV1 (.appError noTranslationErr) ≠ noTranslationErr := by
  exact ⟨rfl, by decide⟩

/-- C7 (amended): `generateResponseSuggestions` and the updated translation
service re-raise a propagated `AppError` unchanged; the catch block of
`translateText` in translation.service.ts instead re-wraps every `AppError`
into `AppError(INTERNAL_SERVER_ERROR, "Failed to translate text: " + message,
500)` via its generic `Error` branch. -/
theorem C7_apperror_rethrow (a : AppErr) :
    mapErrorSuggestions (.appError a) = a ∧
    mapErrorTranslateV2 (.appError a) = a ∧
    mapErrorTranslateV1 (.appError a) =
      ⟨"INTERNAL_SERVER_ERROR", "Failed to translate text: " ++ a.message, 500⟩ :=
  ⟨rfl, rfl, rfl⟩

/-! ## Claim C8: exercise-generation count validation -/

/-- Request body of POST /generate/exercises as far as validation goes;
JS numbers are modelled as rationals. -/
structure ExercisesBody where
  errorType : Option String
  difficulty : Option String
  count : Option ℚ
deriving Repr

/-- `validDifficulties` of TextGenerationController.generateExercises. -/
def validDifficulties : List String := ["beginner", "intermediate", "advanced"]

/-- Validation stage of `TextGenerationController.generateExercises`
(textGeneration.controller.ts lines 191-216): destructuring defaults
(`difficulty = 'intermediate'`, `count = 5`), then the three checks in
source order; the provider call is issued only on `.ok`. -/
def generateExercisesValidate (b : ExercisesBody) :
    Except AppErr (String × String × ℚ) :=
  let difficulty := b.difficulty.getD "intermediate"
  let count := b.count.getD 5
  match b.errorType with
  | none =>
      .error ⟨"VALIDATION_ERROR", "Error type is required and must be a string", 400⟩
  | some et =>
    if et = "" then
      .error ⟨"VALIDATION_ERROR", "Error type is required and must be a string", 400⟩
    else if ¬ (validDifficulties.contains difficulty) then
      .error ⟨"VALIDATION_ERROR",
        "Difficulty must be one of: beginner, intermediate, advanced", 400⟩
    else if count < 1 ∨ count > 20 then
      .error ⟨"VALIDATION_ERROR", "Count must be between 1 and 20", 400⟩
    else .ok (et, difficulty, count)

/-- C8, counterexample. The claim states that the validator accepts `count`
only when it is an integer in [1,20]; the code only checks
`count < 1 || count > 20`, so the non-integer 5/2 is accepted and forwarded
to the provider call. -/
theorem C8_counterexample :
    generateExercisesValidate
        ⟨some "articles", none, some ⟨5, 2, by decide, by decide⟩⟩ =
      .ok ("articles", "intermediate", ⟨5, 2, by decide, by decide⟩) ∧
    (⟨5, 2, by decide, by decide⟩ : ℚ).den ≠ 1 := by
  constructor
  · rw [generateExercisesValidate]
    simp only [Option.getD_some, Option.getD_none]
    rw [if_neg (by decide), if_neg (by decide), if_neg (by decide)]
  · decide

/-- C8 (amended): with a valid errorType and difficulty, the validator
accepts `count` exactly when `1 ≤ count ≤ 20` as a number — integrality is
not checked — and every out-of-range count is rejected before the provider
call with a `VALIDATION_ERROR` whose message names the bounds 1 and 20. -/
theorem C8_count_validation (b : ExercisesBody) (et : String)
    (h1 : b.errorType = some et) (h2 : et ≠ "")
    (h3 : validDifficulties.contains (b.difficulty.getD "intermediate") = true) :
    (¬ (1 ≤ b.count.getD 5 ∧ b.count.getD 5 ≤ 20) →
      generateExercisesValidate b =
        .error ⟨"VALIDATION_ERROR", "Count must be between 1 and 20", 400⟩) ∧
    ((1 ≤ b.count.getD 5 ∧ b.count.getD 5 ≤ 20) →
      generateExercisesValidate b =
        .ok (et, b.difficulty.getD "intermediate", b.count.getD 5)) := by
  constructor
  · intro h
    rw [generateExercisesValidate, h1]
    dsimp only
    rw [if_neg h2, if_neg (not_not_intro h3), if_pos ?_]
    rcases not_and_or.mp h with h | h
    · exact Or.inl (not_le.mp h)
    · exact Or.inr (not_le.mp h)
  · intro h
    rw [generateExercisesValidate, h1]
    dsimp only
    rw [if_neg h2, if_neg (not_not_intro h3), if_neg ?_]
    simp only [not_or, not_lt]
    exact h

/-- C8 witness: count 21 with otherwise-valid fields is rejected naming the
bounds. -/
theorem C8_witness :
    generateExercisesValidate ⟨some "articles", some "beginner", some 21⟩ =
      .error ⟨"VALIDATION_ERROR", "Count must be between 1 and 20", 400⟩ :=
  (C8_count_validation ⟨some "articles", some "beginner", some 21⟩ "articles"
      rfl (by decide) (by decide)).1 (by intro h; exact absurd h.2 (by decide))

/-! ## Claim C9: translation request validation -/

/-- `SUPPORTED_LANGUAGES` (updated translation service, src/unnamed/part_009):
the keys of `LANGUAGE_NAMES` in declaration order. -/
def SUPPORTED_LANGUAGES : List String :=
  ["zh-CN", "zh-TW", "ja", "ko", "es", "fr", "de"]

/-- JS `array.join(', ')`. -/
def joinComma : List String → String
  | [] => ""
  | [s] => s
  | s :: rest => s ++ ", " ++ joinComma rest

/-- Request body of POST /translate. -/
structure TranslateBody where
  text : Option String
  targetLanguage : Option String
deriving Repr

/-- The `ValidationFailure` for an unsupported target language, enumerating
the supported codes (translation.controller.ts lines 62-68). -/
def unsupportedLangErr (tl : String) : AppErr :=
  ⟨"VALIDATION_ERROR",
    "Unsupported target language: " ++ tl ++ ". Supported languages are: " ++
      joinComma SUPPORTED_LANGUAGES, 400⟩

/-- `TranslationController.translate`: `targetLanguage` defaults to `zh-TW`
when undefined, then `validateRequest` runs its checks in source order; the
provider call `translateText(text, targetLanguage)` is issued only on `.ok`. -/
def translateValidate (b : TranslateBody) : Except AppErr (String × String) :=
  let tl := b.targetLanguage.getD "zh-TW"
  match b.text with
  | none =>
      .error ⟨"VALIDATION_ERROR", "Text is required and must be a string", 400⟩
  | some t =>
    if t = "" then
      .error ⟨"VALIDATION_ERROR", "Text is required and must be a string", 400⟩
    else if jsTrim t.data = [] then
      .error ⟨"VALIDATION_ERROR", "Text cannot be empty", 400⟩
    else if t.length > 5000 then
      .error ⟨"VALIDATION_ERROR",
        "Text is too long. Maximum 5000 characters allowed.", 400⟩
    else if ¬ (SUPPORTED_LANGUAGES.contains tl) then
      .error (unsupportedLangErr tl)
    else .ok (t, tl)

/-- C9: a translate request whose (non-blank) text exceeds 5000 characters is
rejected before the provider call with a `ValidationFailure` naming the
5000-character ceiling; a request whose target language is outside the
7-code allow-list is rejected with a `ValidationFailure` enumerating exactly
`zh-CN, zh-TW, ja, ko, es, fr, de`; an omitted target language defaults to
`zh-TW` and validation proceeds identically with that default. -/
theorem C9_translate_validation (t : String) (tl : Option String)
    (hne : t ≠ "") (hblank : jsTrim t.data ≠ []) :
    (t.length > 5000 →
      translateValidate ⟨some t, tl⟩ =
        .error ⟨"VALIDATION_ERROR",
          "Text is too long. Maximum 5000 characters allowed.", 400⟩) ∧
    (t.length ≤ 5000 → SUPPORTED_LANGUAGES.contains (tl.getD "zh-TW") = false →
      translateValidate ⟨some t, tl⟩ = .error (unsupportedLangErr (tl.getD "zh-TW"))) ∧
    (joinComma SUPPORTED_LANGUAGES = "zh-CN, zh-TW, ja, ko, es, fr, de") ∧
    (∀ txt : Option String,
      translateValidate ⟨txt, none⟩ = translateValidate ⟨txt, some "zh-TW"⟩) := by
  refine ⟨?_, ?_, ?_, ?_⟩
  · intro hlen
    rw [translateValidate]
    dsimp only
    rw [if_neg hne, if_neg hblank, if_pos hlen]
  · intro hlen hcontains
    rw [translateValidate]
    dsimp only
    rw [if_neg hne, if_neg hblank, if_neg (not_lt.mpr hlen),
      if_pos (by rw [hcontains]; decide)]
  · decide
  · intro txt
    rfl

/-- C9 witness: a short text with unsupported target language `fr-FR` is
rejected with the enumerating failure. -/
theorem C9_witness :
    translateValidate ⟨some "hi", some "fr-FR"⟩ =
      .error (unsupportedLangErr "fr-FR") :=
  (C9_translate_validation "hi" (some "fr-FR") (by decide)
      (by decide)).2.1 (by decide) (by decide)

/-! ## Claim C10: store flag of suggestion-generation provider calls -/

/-- Options record of the part_007 text-generation service
(`{store?, include?}`). -/
structure TopicGenOptions where
  store : Option Bool
  incl : Option (List String)
deriving DecidableEq, Repr

/-- Request parameters built by part_007's `generateText`
(`ResponsesAPIInputRequestParams`): `include` is added only when provided and
non-empty. -/
structure InputRequestParams where
  model : String
  input : String
  store : Bool
  incl : Option (List String)
deriving DecidableEq, Repr

/-- part_007 `generateText` request building (lines 227-247):
`store = true` default from destructuring. -/
def buildInputRequest (prompt : String) (options : TopicGenOptions) :
    InputRequestParams :=
  { model := cfgModel
  , input := prompt
  , store := options.store.getD true
  , incl :=
      match options.incl with
      | some l => if l ≠ [] then some l else none
      | none => none }

/-- part_007 `talkWithSpecificTopic` request `store` flag (lines 110-134):
same `store = true` destructuring default. -/
def talkRequestStore (options : TopicGenOptions) : Bool :=
  options.store.getD true

/-- The options `generateResponseSuggestions` passes to `generateText`
(part_007 line 371): `{ ...options, store: false }`. -/
def suggestionsCallOptions (options : TopicGenOptions) : TopicGenOptions :=
  { options with store := some false }

/-- C10: every provider request issued by `generateResponseSuggestions`
carries `store = false` regardless of the caller-supplied store option
(including `store: true`), while `talkWithSpecificTopic` and part_007's
`generateText` default `store` to `true` when the caller omits it. -/
theorem C10_suggestions_store_false (prompt : String) (options : TopicGenOptions) :
    (buildInputRequest prompt (suggestionsCallOptions options)).store = false ∧
    (buildInputRequest prompt { options with store := none }).store = true ∧
    talkRequestStore { options with store := none } = true := by
  refine ⟨rfl, ?_, ?_⟩ <;> rfl

/-! ## A model of JSON values and `JSON.parse`

`generateResponseSuggestions` runs `JSON.parse` on the cleaned model text.
The parser below implements the JSON grammar (RFC 8259): objects, arrays,
strings with the standard escapes, numbers (kept as raw tokens, since no
repository code inspects numeric values), `true`/`false`/`null`, and the four
JSON whitespace characters; input with unescaped control characters inside
strings, invalid escapes, or trailing garbage is rejected, as `JSON.parse`
rejects it. Nesting and repetition are bounded by a fuel parameter; the
entry point supplies fuel larger than the input length, which any
terminating parse of the input needs. -/

inductive Json where
  | null
  | bool (b : Bool)
  | num (raw : List Char)
  | str (s : List Char)
  | arr (elems : List Json)
  | obj (members : List (List Char × Json))

/-- JSON whitespace (RFC 8259): space, tab, LF, CR. -/
def isJsonWs (c : Char) : Bool :=
  c = ' ' || c = '\t' || c = '\n' || c = '\r'

def skipWs (cs : List Char) : List Char := cs.dropWhile isJsonWs

def isDigit (c : Char) : Bool := '0' ≤ c && c ≤ '9'

/-- Hexadecimal digit value for `\uXXXX` escapes. -/
def hexVal (c : Char) : Option Nat :=
  if '0' ≤ c ∧ c ≤ '9' then some (c.toNat - '0'.toNat)
  else if 'a' ≤ c ∧ c ≤ 'f' then some (c.toNat - 'a'.toNat + 10)
  else if 'A' ≤ c ∧ c ≤ 'F' then some (c.toNat - 'A'.toNat + 10)
  else none

/-- Prepend a character to the string being accumulated by `parseStrBody`. -/
def consParsed (c : Char) :
    Option (List Char × List Char) → Option (List Char × List Char) :=
  Option.map (fun p => (c :: p.1, p.2))

/-- The single-character JSON escapes: `\"`, `\\`, `\/`, `\b`, `\f`, `\n`,
`\r`, `\t`. -/
def unescape (e : Char) : Option Char :=
  if e = '"' then some '"'
  else if e = '\\' then some '\\'
  else if e = '/' then some '/'
  else if e = 'b' then some (Char.ofNat 8)
  else if e = 'f' then some (Char.ofNat 12)
  else if e = 'n' then some '\n'
  else if e = 'r' then some '\r'
  else if e = 't' then some '\t'
  else none

/-- JSON string body parser: consumes characters after the opening quote up
to and including the closing quote, decoding escapes; returns the decoded
characters and the remaining input. Unescaped control characters and
malformed escapes are errors. -/
def parseStrBody : List Char → Option (List Char × List Char)
  | [] => none
  | c :: rest =>
    if c = '"' then some ([], rest)
    else if c = '\\' then
      match rest with
      | [] => none
      | e :: rs =>
        if e = 'u' then
          match rs with
          | h1 :: h2 :: h3 :: h4 :: rs2 =>
            match hexVal h1, hexVal h2, hexVal h3, hexVal h4 with
            | some a, some b, some c2, some d =>
                consParsed (Char.ofNat (4096 * a + 256 * b + 16 * c2 + d))
                  (parseStrBody rs2)
            | _, _, _, _ => none
          | _ => none
        else
          match unescape e with
          | some d => consParsed d (parseStrBody rs)
          | none => none
    else if c.toNat < 32 then none
    else consParsed c (parseStrBody rest)

theorem parseStrBody_cons (c : Char) (rest : List Char) :
    parseStrBody (c :: rest) =
      if c = '"' then some ([], rest)
      else if c = '\\' then
        match rest with
        | [] => none
        | e :: rs =>
          if e = 'u' then
            match rs with
            | h1 :: h2 :: h3 :: h4 :: rs2 =>
              match hexVal h1, hexVal h2, hexVal h3, hexVal h4 with
              | some a, some b, some c2, some d =>
                  consParsed (Char.ofNat (4096 * a + 256 * b + 16 * c2 + d))
                    (parseStrBody rs2)
              | _, _, _, _ => none
            | _ => none
          else
            match unescape e with
            | some d => consParsed d (parseStrBody rs)
            | none => none
      else if c.toNat < 32 then none
      else consParsed c (parseStrBody rest) := by
  rw [parseStrBody.eq_def]

/-- Step lemma: the closing quote. -/
theorem parseStrBody_close (rest : List Char) :
    parseStrBody ('"' :: rest) = some ([], rest) := by
  rw [parseStrBody_cons, if_pos rfl]

/-- Step lemma: a single-character escape. -/
theorem parseStrBody_esc (e d : Char) (rest : List Char)
    (hu : e ≠ 'u') (hd : unescape e = some d) :
    parseStrBody ('\\' :: e :: rest) = consParsed d (parseStrBody rest) := by
  rw [parseStrBody_cons, if_neg (by decide), if_pos rfl]
  try dsimp only
  rw [if_neg hu, hd]

/-- Step lemma: a `\uXXXX` escape with valid hex digits. -/
theorem parseStrBody_hex (h1 h2 h3 h4 : Char) (a b c2 d : Nat) (rest : List Char)
    (e1 : hexVal h1 = some a) (e2 : hexVal h2 = some b)
    (e3 : hexVal h3 = some c2) (e4 : hexVal h4 = some d) :
    parseStrBody ('\\' :: 'u' :: h1 :: h2 :: h3 :: h4 :: rest) =
      consParsed (Char.ofNat (4096 * a + 256 * b + 16 * c2 + d))
        (parseStrBody rest) := by
  rw [parseStrBody_cons, if_neg (by decide), if_pos rfl]
  try dsimp only
  rw [if_pos rfl]
  try dsimp only
  rw [e1, e2, e3, e4]

/-- Step lemma: an ordinary (unescaped, non-control) character. -/
theorem parseStrBody_plain (c : Char) (rest : List Char)
    (h1 : c ≠ '"') (h2 : c ≠ '\\') (h3 : ¬ c.toNat < 32) :
    parseStrBody (c :: rest) = consParsed c (parseStrBody rest) := by
  rw [parseStrBody_cons, if_neg h1, if_neg h2, if_neg h3]

/-! ### JSON string serialization (the test-side `JSON.stringify` of a
string value), with the standard escapes. -/

def hexDigitChar (n : Nat) : Char :=
  if n < 10 then Char.ofNat ('0'.toNat + n) else Char.ofNat ('a'.toNat + n - 10)

def escapeChar (c : Char) : List Char :=
  if c = '"' then ['\\', '"']
  else if c = '\\' then ['\\', '\\']
  else if c = '\n' then ['\\', 'n']
  else if c = '\r' then ['\\', 'r']
  else if c = '\t' then ['\\', 't']
  else if c = Char.ofNat 8 then ['\\', 'b']
  else if c = Char.ofNat 12 then ['\\', 'f']
  else if c.toNat < 32 then
    ['\\', 'u', '0', '0', hexDigitChar (c.toNat / 16), hexDigitChar (c.toNat % 16)]
  else [c]

def escapeList (cs : List Char) : List Char := cs.flatMap escapeChar

/-- A serialized JSON string: quote, escaped body, quote. -/
def quoteJson (cs : List Char) : List Char := '"' :: (escapeList cs ++ ['"'])

theorem hexVal_hexDigitChar (n : Nat) (h : n < 16) :
    hexVal (hexDigitChar n) = some n := by
  interval_cases n <;> decide

/-- Decoding inverts encoding: the string parser applied to an escaped body
followed by the closing quote recovers the original characters. -/
theorem parseStrBody_escape (cs rest : List Char) :
    parseStrBody (escapeList cs ++ '"' :: rest) = some (cs, rest) := by
  induction cs with
  | nil => exact parseStrBody_close rest
  | cons c cs ih =>
    rw [escapeList, List.flatMap_cons, List.append_assoc]
    show parseStrBody (escapeChar c ++ (escapeList cs ++ '"' :: rest)) = _
    rw [escapeChar]
    by_cases h1 : c = '"'
    · subst h1
      rw [if_pos rfl, List.cons_append, List.cons_append, List.nil_append,
        parseStrBody_esc '"' '"' _ (by decide) (by decide), ih]
      rfl
    · rw [if_neg h1]
      by_cases h2 : c = '\\'
      · subst h2
        rw [if_pos rfl, List.cons_append, List.cons_append, List.nil_append,
          parseStrBody_esc '\\' '\\' _ (by decide) (by decide), ih]
        rfl
      · rw [if_neg h2]
        by_cases h3 : c = '\n'
        · subst h3
          rw [if_pos rfl, List.cons_append, List.cons_append, List.nil_append,
            parseStrBody_esc 'n' '\n' _ (by decide) (by decide), ih]
          rfl
        · rw [if_neg h3]
          by_cases h4 : c = '\r'
          · subst h4
            rw [if_pos rfl, List.cons_append, List.cons_append, List.nil_append,
              parseStrBody_esc 'r' '\r' _ (by decide) (by decide), ih]
            rfl
          · rw [if_neg h4]
            by_cases h5 : c = '\t'
            · subst h5
              rw [if_pos rfl, List.cons_append, List.cons_append,
                List.nil_append,
                parseStrBody_esc 't' '\t' _ (by decide) (by decide), ih]
              rfl
            · rw [if_neg h5]
              by_cases h6 : c = Char.ofNat 8
              · subst h6
                rw [if_pos rfl, List.cons_append, List.cons_append,
                  List.nil_append,
                  parseStrBody_esc 'b' (Char.ofNat 8) _ (by decide) (by decide), ih]
                rfl
              · rw [if_neg h6]
                by_cases h7 : c = Char.ofNat 12
                · subst h7
                  rw [if_pos rfl, List.cons_append, List.cons_append,
                    List.nil_append,
                    parseStrBody_esc 'f' (Char.ofNat 12) _ (by decide) (by decide), ih]
                  rfl
                · rw [if_neg h7]
                  by_cases h8 : c.toNat < 32
                  · rw [if_pos h8]
                    simp only [List.cons_append, List.nil_append]
                    rw [parseStrBody_hex '0' '0'
                      (hexDigitChar (c.toNat / 16)) (hexDigitChar (c.toNat % 16))
                      0 0 (c.toNat / 16) (c.toNat % 16)
                      _ (by decide) (by decide)
                      (hexVal_hexDigitChar (c.toNat / 16) (by omega))
                      (hexVal_hexDigitChar (c.toNat % 16)
                        (Nat.mod_lt _ (by norm_num)))]
                    have hv : 4096 * 0 + 256 * 0 + 16 * (c.toNat / 16) +
                        c.toNat % 16 = c.toNat := by omega
                    rw [hv, Char.ofNat_toNat, ih]
                    rfl
                  · rw [if_neg h8]
                    simp only [List.cons_append, List.nil_append]
                    rw [parseStrBody_plain c _ h1 h2 h8, ih]
                    rfl

/-! ### JSON number tokens -/

def parseIntPart (cs : List Char) : Option (List Char × List Char) :=
  match cs with
  | '0' :: t => some (['0'], t)
  | _ =>
    let ds := cs.takeWhile isDigit
    if ds = [] then none else some (ds, cs.drop ds.length)

def parseFracPart (cs : List Char) : Option (List Char × List Char) :=
  match cs with
  | '.' :: t =>
    let ds := t.takeWhile isDigit
    if ds = [] then none else some ('.' :: ds, t.drop ds.length)
  | _ => some ([], cs)

def parseExpPart (cs : List Char) : Option (List Char × List Char) :=
  match cs with
  | c :: t =>
    if c = 'e' ∨ c = 'E' then
      let sg :=
        match t with
        | '+' :: u => (['+'], u)
        | '-' :: u => (['-'], u)
        | u => (([] : List Char), u)
      let ds := sg.2.takeWhile isDigit
      if ds = [] then none else some (c :: (sg.1 ++ ds), sg.2.drop ds.length)
    else some ([], c :: t)
  | [] => some ([], [])

/-- A JSON number token (RFC 8259 `number` grammar), kept as raw characters. -/
def parseNumberToken (cs : List Char) : Option (List Char × List Char) :=
  let p :=
    match cs with
    | '-' :: t => (['-'], t)
    | t => (([] : List Char), t)
  match parseIntPart p.2 with
  | none => none
  | some (ip, cs2) =>
    match parseFracPart cs2 with
    | none => none
    | some (fp, cs3) =>
      match parseExpPart cs3 with
      | none => none
      | some (ep, cs4) => some (p.1 ++ ip ++ fp ++ ep, cs4)

/-! ### The JSON value parser -/

/-- Parser mode: a JSON value, the members of an object after `{`, or the
elements of an array after `[` (with the members/elements parsed so far). -/
inductive PMode where
  | value
  | members (acc : List (List Char × Json))
  | elems (acc : List Json)

/-- The JSON grammar parser. Fuel decreases on every recursive call; the
entry point supplies more fuel than any parse of the input can use. -/
def parseJ : Nat → PMode → List Char → Option (Json × List Char)
  | 0, _, _ => none
  | fuel + 1, .value, cs =>
    match skipWs cs with
    | [] => none
    | c :: rest =>
      if c = '{' then
        match skipWs rest with
        | [] => parseJ fuel (.members []) []
        | c2 :: rs2 =>
          if c2 = '}' then some (.obj [], rs2)
          else parseJ fuel (.members []) (c2 :: rs2)
      else if c = '[' then
        match skipWs rest with
        | [] => parseJ fuel (.elems []) []
        | c2 :: rs2 =>
          if c2 = ']' then some (.arr [], rs2)
          else parseJ fuel (.elems []) (c2 :: rs2)
      else if c = '"' then
        match parseStrBody rest with
        | some (s, rs) => some (.str s, rs)
        | none => none
      else if c = 't' then
        match rest with
        | 'r' :: 'u' :: 'e' :: rs => some (.bool true, rs)
        | _ => none
      else if c = 'f' then
        match rest with
        | 'a' :: 'l' :: 's' :: 'e' :: rs => some (.bool false, rs)
        | _ => none
      else if c = 'n' then
        match rest with
        | 'u' :: 'l' :: 'l' :: rs => some (.null, rs)
        | _ => none
      else if c = '-' || isDigit c then
        match parseNumberToken (c :: rest) with
        | some (tok, rs) => some (.num tok, rs)
        | none => none
      else none
  | fuel + 1, .members acc, cs =>
    match skipWs cs with
    | c :: rest =>
      if c = '"' then
        match parseStrBody rest with
        | some (key, rest1) =>
          match skipWs rest1 with
          | c2 :: rest2 =>
            if c2 = ':' then
              match parseJ fuel .value rest2 with
              | some (v, rest3) =>
                match skipWs rest3 with
                | c3 :: rest4 =>
                  if c3 = ',' then
                    parseJ fuel (.members (acc ++ [(key, v)])) rest4
                  else if c3 = '}' then
                    some (.obj (acc ++ [(key, v)]), rest4)
                  else none
                | [] => none
              | none => none
            else none
          | [] => none
        | none => none
      else none
    | [] => none
  | fuel + 1, .elems acc, cs =>
    match parseJ fuel .value cs with
    | some (v, rest) =>
      match skipWs rest with
      | c :: rest2 =>
        if c = ',' then parseJ fuel (.elems (acc ++ [v])) rest2
        else if c = ']' then some (.arr (acc ++ [v]), rest2)
        else none
      | [] => none
    | none => none

/-- `JSON.parse`: parse one value, require only whitespace after it.
The fuel `2·|input| + 2` exceeds what any parse can consume, since at least
one input character is consumed for every two fuel units spent. -/
def jsonParse (s : String) : Option Json :=
  match parseJ (2 * s.data.length + 2) .value s.data with
  | some (v, rest) => if skipWs rest = [] then some v else none
  | none => none

/-! ### Serialization of a 3-suggestion object and the parse round trip -/

/-- The compact JSON serialization `{"suggestions":[s1,s2,s3]}` as characters. -/
def serializeSuggestions3 (a b c : List Char) : List Char :=
  '{' :: (quoteJson "suggestions".data ++ ':' :: ('[' ::
    (quoteJson a ++ ',' :: (quoteJson b ++ ',' :: (quoteJson c ++ [']', '}'])))))

/-- JSON-serializing an array of three strings into
`{"suggestions": [s1, s2, s3]}` (`JSON.stringify` escaping). -/
def serializeSuggestions (s1 s2 s3 : String) : String :=
  String.mk (serializeSuggestions3 s1.data s2.data s3.data)

theorem skipWs_cons_of_not (c : Char) (t : List Char) (h : isJsonWs c = false) :
    skipWs (c :: t) = c :: t := by
  simp [skipWs, h]

theorem quoteJson_append (a rest : List Char) :
    quoteJson a ++ rest = '"' :: (escapeList a ++ '"' :: rest) := by
  simp [quoteJson]

theorem parseJ_value_str (f : Nat) (a rest : List Char) :
    parseJ (f + 1) .value (quoteJson a ++ rest) = some (.str a, rest) := by
  rw [quoteJson_append, parseJ.eq_def]
  try dsimp only
  rw [skipWs_cons_of_not _ _ (by decide)]
  try dsimp only
  rw [if_neg (by decide), if_neg (by decide), if_pos rfl, parseStrBody_escape]

theorem parseJ_elems_step (f : Nat) (acc : List Json) (x rest : List Char) :
    parseJ (f + 2) (.elems acc) (quoteJson x ++ ',' :: rest) =
      parseJ (f + 1) (.elems (acc ++ [.str x])) rest := by
  rw [parseJ.eq_def]
  try dsimp only
  rw [parseJ_value_str f]
  try dsimp only
  rw [skipWs_cons_of_not _ _ (by decide)]
  try dsimp only
  rw [if_pos rfl]

theorem parseJ_elems_last (f : Nat) (acc : List Json) (x rest : List Char) :
    parseJ (f + 2) (.elems acc) (quoteJson x ++ ']' :: rest) =
      some (.arr (acc ++ [.str x]), rest) := by
  rw [parseJ.eq_def]
  try dsimp only
  rw [parseJ_value_str f]
  try dsimp only
  rw [skipWs_cons_of_not _ _ (by decide)]
  try dsimp only
  rw [if_neg (by decide), if_pos rfl]

theorem parseJ_value_arr3 (f : Nat) (a b c rest : List Char) :
    parseJ (f + 5) .value ('[' :: (quoteJson a ++ ',' ::
        (quoteJson b ++ ',' :: (quoteJson c ++ ']' :: rest)))) =
      some (.arr [.str a, .str b, .str c], rest) := by
  rw [parseJ.eq_def]
  try dsimp only
  rw [skipWs_cons_of_not '[' _ (by decide)]
  try dsimp only
  rw [if_neg (by decide), if_pos rfl]
  rw [quoteJson_append a, skipWs_cons_of_not '"' _ (by decide)]
  try dsimp only
  rw [if_neg (by decide)]
  rw [← quoteJson_append a]
  rw [show f + 4 = (f + 2) + 2 from rfl]
  rw [parseJ_elems_step, show (f + 2) + 1 = (f + 1) + 2 from rfl,
    parseJ_elems_step, show (f + 1) + 1 = f + 2 from rfl, parseJ_elems_last]
  simp

theorem parseJ_members_sug (f : Nat) (acc : List (List Char × Json))
    (key a b c rest : List Char) :
    parseJ (f + 6) (.members acc) (quoteJson key ++ ':' :: ('[' ::
        (quoteJson a ++ ',' :: (quoteJson b ++ ',' ::
          (quoteJson c ++ ']' :: '}' :: rest))))) =
      some (.obj (acc ++ [(key, .arr [.str a, .str b, .str c])]), rest) := by
  rw [parseJ.eq_def]
  try dsimp only
  rw [quoteJson_append key, skipWs_cons_of_not '"' _ (by decide)]
  try dsimp only
  rw [if_pos rfl, parseStrBody_escape]
  try dsimp only
  rw [skipWs_cons_of_not ':' _ (by decide)]
  try dsimp only
  rw [if_pos rfl]
  rw [parseJ_value_arr3 f]
  try dsimp only
  rw [skipWs_cons_of_not '}' _ (by decide)]
  try dsimp only
  rw [if_neg (by decide), if_pos rfl]

theorem parseJ_serialize (f : Nat) (a b c : List Char) :
    parseJ (f + 7) .value (serializeSuggestions3 a b c) =
      some (.obj [("suggestions".data, .arr [.str a, .str b, .str c])], []) := by
  rw [serializeSuggestions3, parseJ.eq_def]
  try dsimp only
  rw [skipWs_cons_of_not '{' _ (by decide)]
  try dsimp only
  rw [if_pos rfl]
  rw [quoteJson_append "suggestions".data, skipWs_cons_of_not '"' _ (by decide)]
  try dsimp only
  rw [if_neg (by decide)]
  rw [← quoteJson_append "suggestions".data]
  have h := parseJ_members_sug f [] "suggestions".data a b c []
  simp only [List.nil_append] at h
  exact h

theorem serializeSuggestions3_length_ge (a b c : List Char) :
    3 ≤ (serializeSuggestions3 a b c).length := by
  simp [serializeSuggestions3, quoteJson]
  omega

/-- `JSON.parse` inverts the serialization of a 3-suggestion object. -/
theorem jsonParse_serialize (s1 s2 s3 : String) :
    jsonParse (serializeSuggestions s1 s2 s3) =
      some (.obj [("suggestions".data,
        .arr [.str s1.data, .str s2.data, .str s3.data])]) := by
  have hdata : (serializeSuggestions s1 s2 s3).data =
      serializeSuggestions3 s1.data s2.data s3.data := rfl
  have hge := serializeSuggestions3_length_ge s1.data s2.data s3.data
  obtain ⟨f, hf⟩ : ∃ f,
      2 * (serializeSuggestions s1 s2 s3).data.length + 2 = f + 7 := by
    rw [hdata]
    exact ⟨2 * (serializeSuggestions3 s1.data s2.data s3.data).length - 5,
      by omega⟩
  rw [jsonParse, hf, hdata, parseJ_serialize]
  rfl

/-! ## The cleanText step of suggestion recovery -/

/-- Model of `.replace(/\s*```$/, '')`: the anchored regex matches exactly
when the string ends with three backticks, and the leftmost match consumes
the maximal whitespace run immediately before them; removing the match drops
that whitespace and the final backticks. -/
def stripTrailingFence (cs : List Char) : List Char :=
  if "```".data.isSuffixOf cs then dropTrailingWs (cs.take (cs.length - 3))
  else cs

/-- The cleanText step of `generateResponseSuggestions` (part_007 lines
377-382): trim, then strip a leading ```` ```json ```` fence or a bare
```` ``` ```` fence (`/^```json\s*/` resp. `/^```\s*/`) and the trailing
fence, before the strict `JSON.parse`. -/
def cleanModelText (text : List Char) : List Char :=
  let cleanText := jsTrim text
  if "```json".data.isPrefixOf cleanText then
    stripTrailingFence (dropLeadingWs (cleanText.drop 7))
  else if "```".data.isPrefixOf cleanText then
    stripTrailingFence (dropLeadingWs (cleanText.drop 3))
  else cleanText

theorem dropLeadingWs_cons_of_not (c : Char) (t : List Char)
    (h : isJsWs c = false) : dropLeadingWs (c :: t) = c :: t := by
  simp [dropLeadingWs, h]

theorem head_not_ws_of_dropLeadingWs (c : Char) (t : List Char)
    (h : dropLeadingWs (c :: t) = c :: t) : isJsWs c = false := by
  rw [dropLeadingWs, List.dropWhile_eq_self_iff] at h
  have hc := h (by simp)
  simpa using hc

theorem dropLeadingWs_append (X Y : List Char)
    (hL : dropLeadingWs X = X) (hne : X ≠ []) :
    dropLeadingWs (X ++ Y) = X ++ Y := by
  cases X with
  | nil => exact absurd rfl hne
  | cons c t =>
    have hc := head_not_ws_of_dropLeadingWs c t hL
    rw [List.cons_append, dropLeadingWs_cons_of_not c _ hc]

theorem dropTrailingWs_append_nonws (X : List Char) (c : Char)
    (hc : isJsWs c = false) : dropTrailingWs (X ++ [c]) = X ++ [c] := by
  rw [dropTrailingWs, List.reverse_append]
  simp only [List.reverse_cons, List.reverse_nil, List.nil_append,
    List.cons_append]
  rw [List.dropWhile_cons_of_neg (by simp [hc])]
  simp

theorem dropTrailingWs_append_ws (X : List Char) (c : Char)
    (hc : isJsWs c = true) : dropTrailingWs (X ++ [c]) = dropTrailingWs X := by
  rw [dropTrailingWs, dropTrailingWs, List.reverse_append]
  simp only [List.reverse_cons, List.reverse_nil, List.nil_append,
    List.cons_append]
  rw [List.dropWhile_cons_of_pos (by simp [hc])]

/-- The cleanText step undoes a ```` ```json ```` fence around a
trim-invariant non-empty body. -/
theorem cleanModelText_jsonFence (X : List Char) (hne : X ≠ [])
    (hL : dropLeadingWs X = X) (hT : dropTrailingWs X = X) :
    cleanModelText
      ('`' :: '`' :: '`' :: 'j' :: 's' :: 'o' :: 'n' :: '\n' ::
        (X ++ ('\n' :: '`' :: '`' :: '`' :: []))) = X := by
  have hshape :
      ('`' :: '`' :: '`' :: 'j' :: 's' :: 'o' :: 'n' :: '\n' ::
        (X ++ ('\n' :: '`' :: '`' :: '`' :: []))) =
      (('`' :: '`' :: '`' :: 'j' :: 's' :: 'o' :: 'n' :: '\n' ::
        (X ++ ('\n' :: '`' :: '`' :: []))) ++ ['`']) := by
    simp
  have htrim : jsTrim
      ('`' :: '`' :: '`' :: 'j' :: 's' :: 'o' :: 'n' :: '\n' ::
        (X ++ ('\n' :: '`' :: '`' :: '`' :: []))) =
      ('`' :: '`' :: '`' :: 'j' :: 's' :: 'o' :: 'n' :: '\n' ::
        (X ++ ('\n' :: '`' :: '`' :: '`' :: []))) := by
    rw [jsTrim, dropLeadingWs_cons_of_not _ _ (by decide)]
    rw [hshape, dropTrailingWs_append_nonws _ _ (by decide)]
  rw [cleanModelText]
  simp only [htrim]
  rw [if_pos ?hjson]
  case hjson => rfl
  have hdrop :
      ('`' :: '`' :: '`' :: 'j' :: 's' :: 'o' :: 'n' :: '\n' ::
        (X ++ ('\n' :: '`' :: '`' :: '`' :: []))).drop 7 =
      '\n' :: (X ++ ('\n' :: '`' :: '`' :: '`' :: [])) := rfl
  rw [hdrop, dropLeadingWs, List.dropWhile_cons_of_pos (by decide)]
  rw [show (List.dropWhile isJsWs (X ++ ('\n' :: '`' :: '`' :: '`' :: []))) =
      dropLeadingWs (X ++ ('\n' :: '`' :: '`' :: '`' :: [])) from rfl]
  rw [dropLeadingWs_append X _ hL hne]
  rw [stripTrailingFence]
  rw [if_pos ?hsuf]
  case hsuf =>
    rw [List.isSuffixOf_iff_suffix]
    exact ⟨X ++ ['\n'], by simp⟩
  have hlen : (X ++ ('\n' :: '`' :: '`' :: '`' :: [])).length - 3 =
      X.length + 1 := by
    simp
  rw [hlen]
  rw [show X ++ ('\n' :: '`' :: '`' :: '`' :: []) =
      (X ++ ['\n']) ++ ['`', '`', '`'] from by simp]
  rw [List.take_left' (by simp)]
  rw [dropTrailingWs_append_ws _ _ (by decide), hT]

/-- The cleanText step undoes a bare ```` ``` ```` fence around a
trim-invariant non-empty body. -/
theorem cleanModelText_bareFence (X : List Char) (hne : X ≠ [])
    (hL : dropLeadingWs X = X) (hT : dropTrailingWs X = X)
    (hnotjson : "```json".data.isPrefixOf
      ('`' :: '`' :: '`' :: '\n' ::
        (X ++ ('\n' :: '`' :: '`' :: '`' :: []))) = false) :
    cleanModelText
      ('`' :: '`' :: '`' :: '\n' ::
        (X ++ ('\n' :: '`' :: '`' :: '`' :: []))) = X := by
  have hshape :
      ('`' :: '`' :: '`' :: '\n' ::
        (X ++ ('\n' :: '`' :: '`' :: '`' :: []))) =
      (('`' :: '`' :: '`' :: '\n' ::
        (X ++ ('\n' :: '`' :: '`' :: []))) ++ ['`']) := by
    simp
  have htrim : jsTrim
      ('`' :: '`' :: '`' :: '\n' ::
        (X ++ ('\n' :: '`' :: '`' :: '`' :: []))) =
      ('`' :: '`' :: '`' :: '\n' ::
        (X ++ ('\n' :: '`' :: '`' :: '`' :: []))) := by
    rw [jsTrim, dropLeadingWs_cons_of_not _ _ (by decide)]
    rw [hshape, dropTrailingWs_append_nonws _ _ (by decide)]
  rw [cleanModelText]
  simp only [htrim]
  rw [if_neg (by simp [hnotjson]), if_pos ?hbare]
  case hbare => rfl
  have hdrop :
      ('`' :: '`' :: '`' :: '\n' ::
        (X ++ ('\n' :: '`' :: '`' :: '`' :: []))).drop 3 =
      '\n' :: (X ++ ('\n' :: '`' :: '`' :: '`' :: [])) := rfl
  rw [hdrop, dropLeadingWs, List.dropWhile_cons_of_pos (by decide)]
  rw [show (List.dropWhile isJsWs (X ++ ('\n' :: '`' :: '`' :: '`' :: []))) =
      dropLeadingWs (X ++ ('\n' :: '`' :: '`' :: '`' :: [])) from rfl]
  rw [dropLeadingWs_append X _ hL hne]
  rw [stripTrailingFence]
  rw [if_pos ?hsuf]
  case hsuf =>
    rw [List.isSuffixOf_iff_suffix]
    exact ⟨X ++ ['\n'], by simp⟩
  have hlen : (X ++ ('\n' :: '`' :: '`' :: '`' :: [])).length - 3 =
      X.length + 1 := by
    simp
  rw [hlen]
  rw [show X ++ ('\n' :: '`' :: '`' :: '`' :: []) =
      (X ++ ['\n']) ++ ['`', '`', '`'] from by simp]
  rw [List.take_left' (by simp)]
  rw [dropTrailingWs_append_ws _ _ (by decide), hT]

/-- cleanText leaves a trim-invariant text that carries no leading fence
untouched. -/
theorem cleanModelText_nofence (X : List Char)
    (hL : dropLeadingWs X = X) (hT : dropTrailingWs X = X)
    (hnot : "```".data.isPrefixOf X = false) :
    cleanModelText X = X := by
  have htrim : jsTrim X = X := by rw [jsTrim, hL, hT]
  rw [cleanModelText]
  simp only [htrim]
  rw [if_neg ?h1, if_neg ?h2]
  case h1 =>
    intro hcon
    rw [List.isPrefixOf_iff_prefix] at hcon
    have : "```".data.isPrefixOf X = true := by
      rw [List.isPrefixOf_iff_prefix]
      exact List.IsPrefix.trans ⟨['j', 's', 'o', 'n'], rfl⟩ hcon
    simp [this] at hnot
  case h2 => simp [hnot]

/-! ## The two recovery tiers of generateResponseSuggestions -/

/-- Property lookup on a parsed JSON object: `JSON.parse` lets later
duplicate keys overwrite earlier ones, hence the reversed search. -/
def lookupKey (k : List Char) (fields : List (List Char × Json)) : Option Json :=
  (fields.reverse.find? (fun kv => kv.1 = k)).map (fun kv => kv.2)

/-- Strict-tier element conversion: the code maps `s => s.trim()` over the
first three elements, which throws (triggering the fallback) unless every
element is a string. -/
def asJsonStr : Json → Option (List Char)
  | .str s => some s
  | _ => none

/-- The strict tier of `generateResponseSuggestions` (part_007 lines
374-404): clean the text, `JSON.parse` it, require an object whose
`suggestions` property is an array of at least 3 elements, take the first 3,
trim each, drop the ones that trim to empty, and require 3 to remain.
`none` models a throw, which hands control to the fallback tier. -/
def strictRecover (text : String) : Option (List String) :=
  match jsonParse (String.mk (cleanModelText text.data)) with
  | some (.obj fields) =>
    match lookupKey "suggestions".data fields with
    | some (.arr items) =>
      if items.length < 3 then none
      else
        match (items.take 3).mapM asJsonStr with
        | some strs =>
          if (((strs.map (fun s => String.mk (jsTrim s))).filter
              (fun s => s ≠ "")).length < 3) then none
          else some ((strs.map (fun s => String.mk (jsTrim s))).filter
            (fun s => s ≠ ""))
        | none => none
    | _ => none
  | _ => none

/-- JS `text.split('\n')` (keeps empty segments). -/
def splitNl : List Char → List (List Char)
  | [] => [[]]
  | c :: rest =>
    if c = '\n' then [] :: splitNl rest
    else
      match splitNl rest with
      | [] => [[c]]
      | l :: ls => (c :: l) :: ls

/-- The fallback tier (part_007 lines 412-417): split the raw text on
newlines, trim each line, drop empty lines and lines starting with `{` or
`[`, and take the first 3. -/
def fallbackLines (text : String) : List String :=
  (((splitNl text.data).map (fun l => String.mk (jsTrim l))).filter
    (fun s => !(s == "") && !(strStartsWith s "\x7b") && !(strStartsWith s "["))).take 3

/-- The `RecoveryFailure` error raised when both tiers fail (part_007 lines
423-427); the outer catch re-raises it unchanged. -/
def recoveryFailureErr : AppErr :=
  ⟨"INTERNAL_SERVER_ERROR",
    "Failed to parse response suggestions from LLM output", 500⟩

/-- The complete parse stage of `generateResponseSuggestions` applied to the
model text: strict tier, then the newline fallback, then `RecoveryFailure`. -/
def recoverSuggestions (text : String) : Except AppErr (List String) :=
  match strictRecover text with
  | some l => .ok l
  | none =>
    if 3 ≤ (fallbackLines text).length then .ok ((fallbackLines text).take 3)
    else .error recoveryFailureErr

/-- Wrapping a serialization in a ```` ```json ```` fenced block. -/
def wrapJsonFence (s : String) : String := "```json\n" ++ s ++ "\n```"

/-- Wrapping a serialization in a bare ```` ``` ```` fenced block. -/
def wrapBare (s : String) : String := "```\n" ++ s ++ "\n```"

theorem dropLeadingWs_serialize (a b c : List Char) :
    dropLeadingWs (serializeSuggestions3 a b c) = serializeSuggestions3 a b c := by
  rw [serializeSuggestions3, dropLeadingWs_cons_of_not _ _ (by decide)]

theorem dropTrailingWs_serialize (a b c : List Char) :
    dropTrailingWs (serializeSuggestions3 a b c) = serializeSuggestions3 a b c := by
  have hshape : serializeSuggestions3 a b c =
      ('{' :: (quoteJson "suggestions".data ++ ':' :: ('[' ::
        (quoteJson a ++ ',' :: (quoteJson b ++ ',' ::
          (quoteJson c ++ [']'])))))) ++ ['}'] := by
    simp [serializeSuggestions3]
  rw [hshape]
  exact dropTrailingWs_append_nonws _ _ (by decide)

/-- The cleanText step leaves the (unfenced) serialization untouched. -/
theorem cleanModelText_serialize (a b c : List Char) :
    cleanModelText (serializeSuggestions3 a b c) = serializeSuggestions3 a b c := by
  apply cleanModelText_nofence
  · exact dropLeadingWs_serialize a b c
  · exact dropTrailingWs_serialize a b c
  · rw [serializeSuggestions3]
    rfl

/-- The strict tier recovers the three strings from the unfenced
serialization, unchanged, provided each is non-empty and trim-invariant. -/
theorem strictRecover_serialize (s1 s2 s3 : String)
    (h1 : s1 ≠ "") (h2 : s2 ≠ "") (h3 : s3 ≠ "")
    (ht1 : jsTrim s1.data = s1.data) (ht2 : jsTrim s2.data = s2.data)
    (ht3 : jsTrim s3.data = s3.data) :
    strictRecover (serializeSuggestions s1 s2 s3) = some [s1, s2, s3] := by
  have hclean : cleanModelText (serializeSuggestions s1 s2 s3).data =
      serializeSuggestions3 s1.data s2.data s3.data :=
    cleanModelText_serialize s1.data s2.data s3.data
  rw [strictRecover, hclean]
  rw [show String.mk (serializeSuggestions3 s1.data s2.data s3.data) =
    serializeSuggestions s1 s2 s3 from rfl]
  rw [jsonParse_serialize]
  dsimp only
  rw [show lookupKey "suggestions".data [("suggestions".data,
      Json.arr [.str s1.data, .str s2.data, .str s3.data])] =
    some (Json.arr [.str s1.data, .str s2.data, .str s3.data]) from by
      simp [lookupKey]]
  dsimp only
  rw [if_neg (by simp)]
  rw [show ([Json.str s1.data, Json.str s2.data,
      Json.str s3.data].take 3).mapM asJsonStr =
    some [s1.data, s2.data, s3.data] from rfl]
  dsimp only
  rw [show ([s1.data, s2.data, s3.data].map (fun s => String.mk (jsTrim s))) =
    [String.mk (jsTrim s1.data), String.mk (jsTrim s2.data),
      String.mk (jsTrim s3.data)] from rfl]
  rw [ht1, ht2, ht3]
  rw [show (String.mk s1.data) = s1 from rfl, show (String.mk s2.data) = s2 from rfl,
    show (String.mk s3.data) = s3 from rfl]
  rw [List.filter_cons_of_pos (by simp [h1]), List.filter_cons_of_pos (by simp [h2]),
    List.filter_cons_of_pos (by simp [h3])]
  rw [if_neg (by simp)]
  rfl

/-- The strict tier also recovers the three strings when the serialization
is wrapped in a ```` ```json ```` fence. -/
theorem strictRecover_serialize_fenced (s1 s2 s3 : String)
    (h1 : s1 ≠ "") (h2 : s2 ≠ "") (h3 : s3 ≠ "")
    (ht1 : jsTrim s1.data = s1.data) (ht2 : jsTrim s2.data = s2.data)
    (ht3 : jsTrim s3.data = s3.data) :
    strictRecover (wrapJsonFence (serializeSuggestions s1 s2 s3)) =
      some [s1, s2, s3] := by
  have hw : (wrapJsonFence (serializeSuggestions s1 s2 s3)).data =
      '`' :: '`' :: '`' :: 'j' :: 's' :: 'o' :: 'n' :: '\n' ::
        (serializeSuggestions3 s1.data s2.data s3.data ++
          ('\n' :: '`' :: '`' :: '`' :: [])) := rfl
  have hclean : cleanModelText (wrapJsonFence (serializeSuggestions s1 s2 s3)).data =
      serializeSuggestions3 s1.data s2.data s3.data := by
    rw [hw]
    exact cleanModelText_jsonFence _ (by rw [serializeSuggestions3]; simp)
      (dropLeadingWs_serialize _ _ _) (dropTrailingWs_serialize _ _ _)
  rw [strictRecover, hclean]
  rw [show String.mk (serializeSuggestions3 s1.data s2.data s3.data) =
    serializeSuggestions s1 s2 s3 from rfl]
  rw [jsonParse_serialize]
  dsimp only
  rw [show lookupKey "suggestions".data [("suggestions".data,
      Json.arr [.str s1.data, .str s2.data, .str s3.data])] =
    some (Json.arr [.str s1.data, .str s2.data, .str s3.data]) from by
      simp [lookupKey]]
  dsimp only
  rw [if_neg (by simp)]
  rw [show ([Json.str s1.data, Json.str s2.data,
      Json.str s3.data].take 3).mapM asJsonStr =
    some [s1.data, s2.data, s3.data] from rfl]
  dsimp only
  rw [show ([s1.data, s2.data, s3.data].map (fun s => String.mk (jsTrim s))) =
    [String.mk (jsTrim s1.data), String.mk (jsTrim s2.data),
      String.mk (jsTrim s3.data)] from rfl]
  rw [ht1, ht2, ht3]
  rw [show (String.mk s1.data) = s1 from rfl, show (String.mk s2.data) = s2 from rfl,
    show (String.mk s3.data) = s3 from rfl]
  rw [List.filter_cons_of_pos (by simp [h1]), List.filter_cons_of_pos (by simp [h2]),
    List.filter_cons_of_pos (by simp [h3])]
  rw [if_neg (by simp)]
  rfl

/-! ## Claim C2 -/

/-- C2, counterexample. The claim states the round trip returns every array
of 3 non-empty strings unchanged; the recovery trims each suggestion, so the
non-empty string `" a"` (leading space) comes back as `"a"`. -/
theorem C2_counterexample :
    recoverSuggestions (serializeSuggestions " a" "b" "c") = .ok ["a", "b", "c"] ∧
    (["a", "b", "c"] : List String) ≠ [" a", "b", "c"] := by
  exact ⟨rfl, by decide⟩

/-- C2 (amended): for any 3 strings that are non-empty and carry no leading
or trailing whitespace (trim-invariant), serializing to
`{"suggestions": [s1, s2, s3]}`, optionally wrapping in a ```json fence, and
running the recovery of `generateResponseSuggestions` yields exactly the
original 3 strings in order. Strings with surrounding whitespace are trimmed
(and dropped entirely when whitespace-only), so trim-invariance is required. -/
theorem C2_roundtrip (s1 s2 s3 : String)
    (h1 : s1 ≠ "") (h2 : s2 ≠ "") (h3 : s3 ≠ "")
    (ht1 : jsTrim s1.data = s1.data) (ht2 : jsTrim s2.data = s2.data)
    (ht3 : jsTrim s3.data = s3.data) :
    recoverSuggestions (serializeSuggestions s1 s2 s3) = .ok [s1, s2, s3] ∧
    recoverSuggestions (wrapJsonFence (serializeSuggestions s1 s2 s3)) =
      .ok [s1, s2, s3] := by
  constructor
  · rw [recoverSuggestions, strictRecover_serialize s1 s2 s3 h1 h2 h3 ht1 ht2 ht3]
  · rw [recoverSuggestions,
      strictRecover_serialize_fenced s1 s2 s3 h1 h2 h3 ht1 ht2 ht3]

/-- C2 witness: a concrete round trip through the amended theorem, fenced
and unfenced. -/
theorem C2_witness :
    recoverSuggestions (serializeSuggestions "I think so." "Maybe." "No idea.") =
      .ok ["I think so.", "Maybe.", "No idea."] ∧
    recoverSuggestions (wrapJsonFence
        (serializeSuggestions "I think so." "Maybe." "No idea.")) =
      .ok ["I think so.", "Maybe.", "No idea."] :=
  C2_roundtrip "I think so." "Maybe." "No idea."
    (by decide) (by decide) (by decide) rfl rfl rfl

/-! ## Claim C3 -/

/-- C3: when the strict tier fails (parse error, wrong shape, or fewer than
3 valid suggestions — all modelled by `strictRecover = none`), the recovery
splits the raw text on newlines, trims each line, discards empty lines and
lines starting with `{` or `[`, and returns the first 3 remaining lines;
with fewer than 3 remaining it raises the `RecoveryFailure` internal error,
a 500-class `INTERNAL_SERVER_ERROR`, not a validation failure. -/
theorem C3_fallback_recovery (text : String)
    (h : strictRecover text = none) :
    (3 ≤ (fallbackLines text).length →
      recoverSuggestions text = .ok (fallbackLines text)) ∧
    ((fallbackLines text).length < 3 →
      recoverSuggestions text = .error recoveryFailureErr) ∧
    recoveryFailureErr.statusCode = 500 ∧
    recoveryFailureErr.code = "INTERNAL_SERVER_ERROR" ∧
    recoveryFailureErr.code ≠ "VALIDATION_ERROR" := by
  refine ⟨?_, ?_, rfl, rfl, by decide⟩
  · intro hlen
    rw [recoverSuggestions, h]
    dsimp only
    rw [if_pos hlen]
    have htake : (fallbackLines text).take 3 = fallbackLines text := by
      rw [fallbackLines, List.take_take]
      norm_num
    rw [htake]
  · intro hlen
    rw [recoverSuggestions, h]
    dsimp only
    rw [if_neg (by omega)]

/-- C3 witness: plain non-JSON text with three usable lines goes through the
fallback; the same with two lines raises the `RecoveryFailure` error. -/
theorem C3_witness :
    recoverSuggestions "Sounds great!\nTell me more.\nWhy is that?" =
      .ok ["Sounds great!", "Tell me more.", "Why is that?"] ∧
    recoverSuggestions "Sounds great!\nTell me more." =
      .error recoveryFailureErr := by
  constructor
  · have h := (C3_fallback_recovery "Sounds great!\nTell me more.\nWhy is that?"
      rfl).1 (by decide)
    rw [h]
    rfl
  · exact (C3_fallback_recovery "Sounds great!\nTell me more." rfl).2.1 (by decide)

/-! ## Claim C6 -/

/-- C6, counterexample. The claim states a fenced, otherwise-valid JSON
suggestions object parses on the strict tier regardless of the language tag;
with tag `js` the code strips only the three backticks, leaving `js` in the
text, the strict parse fails, and recovery comes from the fallback instead
(here: failure, since no usable lines remain). With tag `json` the strict
tier succeeds. -/
theorem C6_counterexample :
    strictRecover "```js\n\x7b\"suggestions\": [\"a\", \"b\", \"c\"]\x7d\n```" = none ∧
    strictRecover "```json\n\x7b\"suggestions\": [\"a\", \"b\", \"c\"]\x7d\n```" =
      some ["a", "b", "c"] := by
  exact ⟨rfl, rfl⟩

/-- C6 (amended): the recovery strips the leading and trailing fence markers
before the strict parse when the opening fence carries no language tag or
exactly the tag `json`: for those two fence forms, cleaning a fenced
trim-invariant body returns exactly the body, so a fenced valid suggestions
object parses on the strict tier. (Any other tag survives the stripping and
makes the strict parse fail, as the counterexample shows.) -/
theorem C6_fence_stripping (s : String) (hne : s.data ≠ [])
    (hL : dropLeadingWs s.data = s.data) (hT : dropTrailingWs s.data = s.data) :
    cleanModelText (wrapJsonFence s).data = s.data ∧
    cleanModelText (wrapBare s).data = s.data := by
  constructor
  · have hw : (wrapJsonFence s).data =
        '`' :: '`' :: '`' :: 'j' :: 's' :: 'o' :: 'n' :: '\n' ::
          (s.data ++ ('\n' :: '`' :: '`' :: '`' :: [])) := rfl
    rw [hw]
    exact cleanModelText_jsonFence s.data hne hL hT
  · have hw : (wrapBare s).data =
        '`' :: '`' :: '`' :: '\n' ::
          (s.data ++ ('\n' :: '`' :: '`' :: '`' :: [])) := rfl
    rw [hw]
    exact cleanModelText_bareFence s.data hne hL hT rfl

/-- C6 witness: fence stripping around a concrete JSON object body. -/
theorem C6_witness :
    cleanModelText (wrapJsonFence "\x7b\"suggestions\": []\x7d").data =
      "\x7b\"suggestions\": []\x7d".data ∧
    cleanModelText (wrapBare "\x7b\"suggestions\": []\x7d").data =
      "\x7b\"suggestions\": []\x7d".data :=
  C6_fence_stripping "\x7b\"suggestions\": []\x7d" (by decide) rfl rfl

end EnglishBrain
